import Mathlib

set_option synthInstance.maxSize 1024

/-!

# Verification of the ko-state-machine transition engine

This file is a shallow embedding of the finite-state-machine runtime in
`src/index.js` (the labeled-arrow variant, class `StateMachine`), together
with the constructor of the older plain-target variant
(`src/unnamed/part_001`), and proofs of the specified properties.

Modelling conventions:

* State and arrow identifiers are strings, as in the source.
* JavaScript objects used as maps (`transitions` and its nested levels) are
  association lists; property lookup is `List.lookup` (first match) and
  lodash `_.isEmpty` is `List.isEmpty`.
* An Edge Spec is an arbitrary JavaScript value; `ArrowVal` covers the
  value shapes the engine distinguishes: the literal `true`, other
  primitive values (with their truthiness), `null`/`undefined` (property
  access on which throws a TypeError), callables, and records with the
  optional callable fields `available` and `transition`.
* Callables are opaque identifiers (`FunId`); an environment `Env` gives
  each availability predicate a pure result and each transition action an
  outcome (return a plain value, return a thenable, or throw a user
  error identified by a natural number).  The engine never inspects these
  results beyond truthiness and thenable-ness, exactly as the source.
* Thrown errors are the `JsErr` values; a user error thrown or used as a
  rejection reason by an action keeps its identity (`JsErr.user n`), so
  propagation without wrapping is equality of the `JsErr` value.
* Calls of user-supplied functions are recorded in an event list, so that
  claims of the form "the action is never invoked" and "the predicate is
  invoked with the caller's arguments" are statements about the events.
* An action returning a thenable suspends the machine: `go` returns a
  pending result and leaves `_currentTransition` set; the continuation
  registered with `then(resolved, rejected)` is `Machine.settleGo`,
  applied when the thenable settles.

-/

abbrev StateId := String
abbrev ArrowId := String
abbrev FunId := Nat
abbrev Args := List Nat

/-- Plain (non-thenable) JavaScript values appearing as results of user
functions, with the truthiness the engine observes. -/
inductive PVal where
  | undef
  | vbool (b : Bool)
  | vnum (n : Int)
  | vstr (s : String)
deriving DecidableEq, Repr

/-- JavaScript truthiness of a plain value. -/
def PVal.truthy : PVal → Bool
  | .undef => false
  | .vbool b => b
  | .vnum n => n != 0
  | .vstr s => s != ""

/-- The error taxonomy of `src/index.js` (lines 9-31) plus the engine-raised
TypeErrors and user errors.  `user n` is the error object thrown (or used as
a rejection reason) by a user action, tracked by identity `n`; the engine
never constructs or alters such a value.  `ArrowNotAvailableError` is a
subclass of `NoArrowsError` in the source; they are distinct constructors
here and the one `instanceof ArrowNotAvailableError` check in `canGo` is a
match on the `arrowNotAvailable` constructor, which is exactly what the
subclass test observes (a plain `NoArrowsError` is not an instance of the
subclass). -/
inductive JsErr where
  | invalidOptions
  | unknownState
  | unknownArrow
  | concurrentTransition
  | noArrows
  | arrowNotAvailable
  | typeError (msg : String)
  | user (n : Nat)
deriving DecidableEq, Repr

/-- Whether an error is a (any) TypeError. -/
def JsErr.isTypeError : JsErr → Bool
  | .typeError _ => true
  | _ => false

/-- An Edge Spec value: the JavaScript value stored in the deepest level of
the `transitions` map.  `vfun` is any callable, `vobj` is any other
non-null object, modelled through the two fields the engine reads
(`available` and `transition`, each absent or callable). -/
inductive ArrowVal where
  | vtrue
  | vfalse
  | vnull
  | vundef
  | vnum (n : Int)
  | vstr (s : String)
  | vfun (f : FunId)
  | vobj (available : Option FunId) (transition : Option FunId)
deriving DecidableEq, Repr

/-- JavaScript truthiness of an Edge Spec value (`Boolean(arrow)` in
`canGo`). -/
def ArrowVal.truthy : ArrowVal → Bool
  | .vtrue => true
  | .vfalse => false
  | .vnull => false
  | .vundef => false
  | .vnum n => n != 0
  | .vstr s => s != ""
  | .vfun _ => true
  | .vobj _ _ => true

/-- The three Edge Spec shapes the spec recognizes: the literal `true`, a
callable, or a record whose `transition` field is callable. -/
def ArrowVal.validShape : ArrowVal → Bool
  | .vtrue => true
  | .vfun _ => true
  | .vobj _ (some _) => true
  | _ => false

/-- Reading the `available` property of an Edge Spec value
(`arrow.available` in `_dryGo`, line 170).  Property access on `null` or
`undefined` throws a TypeError; every non-record value has no `available`
property, which reads as `undefined` (treated as absent). -/
def getAvailable : ArrowVal → Except JsErr (Option FunId)
  | .vnull => .error (.typeError "Cannot read properties of null")
  | .vundef => .error (.typeError "Cannot read properties of undefined")
  | .vobj a _ => .ok a
  | _ => .ok none

/-- Result of a transition action that did not throw: a plain value or a
thenable (a value with a callable `then`); a thenable is identified by a
number and always truthy, so `transitionResult && typeof
transitionResult.then === 'function'` holds exactly for `pendingThen`. -/
inductive ResV where
  | plain (v : PVal)
  | pendingThen (t : Nat)
deriving DecidableEq, Repr

/-- Outcome of invoking a transition action: return a result or throw user
error `n`. -/
abbrev ActOut := Except Nat ResV

/-- Semantics of the user-supplied callables: availability predicates are
pure, transition actions may throw or return a thenable. -/
structure Env where
  availFn : FunId → Args → PVal
  actFn : FunId → Args → ActOut

/-- Invocation events: each call of a user availability predicate or
transition action, with the exact argument list passed to it. -/
inductive Ev where
  | callAvailable (f : FunId) (args : Args)
  | callTransition (f : FunId) (args : Args)
deriving DecidableEq, Repr

/-- The in-flight transition record stored in `this._currentTransition`
(`go`, lines 195-198). -/
structure Pending where
  targetArrow : ArrowId
  targetState : StateId
deriving DecidableEq, Repr

abbrev ArrowMap := List (ArrowId × ArrowVal)
abbrev TargetMap := List (StateId × ArrowMap)
abbrev TransMap := List (StateId × TargetMap)

/-- The runtime instance: the validated configuration fields and the two
observable cells (`src/index.js`, lines 60-66). -/
structure Machine where
  _states : List StateId
  _arrows : List ArrowId
  _transitions : TransMap
  _state : StateId
  _currentTransition : Option Pending
deriving DecidableEq, Repr

/-- Method `state()` (lines 69-71). -/
def Machine.state (m : Machine) : StateId := m._state

/-- Method `isBusy()` (lines 73-75): `Boolean(this._currentTransition())`. -/
def Machine.isBusy (m : Machine) : Bool := m._currentTransition.isSome

/-- Embeds an action outcome into the engine error universe: a thrown user
error propagates as the same `JsErr.user` value. -/
def wrapUser : ActOut → Except JsErr ResV
  | .ok v => .ok v
  | .error n => .error (.user n)

/-- Method `_evaluateArrow(arrow, ...args)` (lines 77-91).  The source
checks, in order, `arrow === true`, `typeof arrow === 'function'`, and
`typeof arrow === 'object'` (which also matches `null`, making the
`arrow.transition` read throw), and otherwise throws the explicit
TypeError.  Calling a missing `transition` field of a record throws the
"is not a function" TypeError. -/
def _evaluateArrow (env : Env) (arrow : ArrowVal) (args : Args) :
    Except JsErr ResV × List Ev :=
  match arrow with
  | .vtrue => (.ok (.plain .undef), [])
  | .vfun f => (wrapUser (env.actFn f args), [.callTransition f args])
  | .vnull => (.error (.typeError "Cannot read properties of null"), [])
  | .vobj _ (some t) => (wrapUser (env.actFn t args), [.callTransition t args])
  | .vobj _ none => (.error (.typeError "arrow.transition is not a function"), [])
  | _ => (.error (.typeError "Expected transition function, record or true"), [])

/-- The validation chain of `_dryGo(targetArrow, targetState, callback,
...args)` (lines 93-177), up to and including the availability check,
returning the Edge Spec value the callback would receive.  Check for
check: unknown target state (line 94), unknown arrow (line 105), transition
in progress (line 117), no target states reachable from the current state
(line 143), no arrows defined to the target state (line 155), then the
lookup `definedArrows[targetArrow]` (which yields `undefined` when the
arrow key is absent, line 168) and the availability read and call
`!arrow.available || arrow.available(...args)` (line 170). -/
def _dryGoChecks (env : Env) (m : Machine) (targetArrow : ArrowId)
    (targetState : StateId) (args : Args) : Except JsErr ArrowVal × List Ev :=
  if targetState ∉ m._states then
    (.error .unknownState, [])
  else if targetArrow ∉ m._arrows then
    (.error .unknownArrow, [])
  else if m._currentTransition.isSome then
    (.error .concurrentTransition, [])
  else
    match m._transitions.lookup m._state with
    | none => (.error .noArrows, [])
    | some definedTargetStates =>
      if definedTargetStates.isEmpty then (.error .noArrows, [])
      else
        match definedTargetStates.lookup targetState with
        | none => (.error .noArrows, [])
        | some definedArrows =>
          if definedArrows.isEmpty then (.error .noArrows, [])
          else
            match getAvailable ((definedArrows.lookup targetArrow).getD .vundef) with
            | .error e => (.error e, [])
            | .ok none => (.ok ((definedArrows.lookup targetArrow).getD .vundef), [])
            | .ok (some f) =>
              if (env.availFn f args).truthy then
                (.ok ((definedArrows.lookup targetArrow).getD .vundef),
                  [.callAvailable f args])
              else
                (.error .arrowNotAvailable, [.callAvailable f args])

/-- Method `_dryGo` (lines 93-177): the validation chain followed by
`return callback(targetArrow, targetState, arrow, ...args)` on success. -/
def _dryGo {σ : Type} (env : Env) (m : Machine) (targetArrow : ArrowId)
    (targetState : StateId)
    (callback : ArrowId → StateId → ArrowVal → Args → σ × List Ev)
    (args : Args) : Except JsErr σ × List Ev :=
  match _dryGoChecks env m targetArrow targetState args with
  | (.error e, evs) => (.error e, evs)
  | (.ok arrow, evs) =>
    (.ok (callback targetArrow targetState arrow args).1,
      evs ++ (callback targetArrow targetState arrow args).2)

/-- Method `canGo(targetArrow, targetState, ...canGoArgs)` (lines 180-191):
run `_dryGo` with the callback `Boolean(arrow)`; catch exactly
`ArrowNotAvailableError` and convert it to `false`; rethrow anything
else. -/
def Machine.canGo (env : Env) (m : Machine) (targetArrow : ArrowId)
    (targetState : StateId) (args : Args) : Except JsErr Bool × List Ev :=
  match _dryGo env m targetArrow targetState
      (fun _ _ arrow _ => (arrow.truthy, ([] : List Ev))) args with
  | (.error .arrowNotAvailable, evs) => (.ok false, evs)
  | r => r

/-- Result of a `go` call as observed synchronously by the caller: a plain
return value, a thrown error, or a returned thenable (identified by the
number of the thenable the action returned). -/
inductive GoRes where
  | ret (v : PVal)
  | pendingThen (t : Nat)
  | thrown (e : JsErr)
deriving DecidableEq, Repr

/-- Whether a `go` result is a synchronously thrown TypeError. -/
def GoRes.isThrownTypeError : GoRes → Bool
  | .thrown (.typeError _) => true
  | _ => false

/-- The `resolved` continuation of `go` (lines 211-215): commit the target
state, clear the in-flight record, pass the value through. -/
def Machine.resolved (m : Machine) (targetState : StateId) (ret : PVal) :
    PVal × Machine :=
  (ret, { m with _state := targetState, _currentTransition := none })

/-- The `rejected` continuation of `go` (lines 217-220): clear the
in-flight record only and rethrow the original error. -/
def Machine.rejected (m : Machine) (err : JsErr) : JsErr × Machine :=
  (err, { m with _currentTransition := none })

/-- The executor callback of `go` (lines 194-228): set
`this._currentTransition` synchronously, evaluate the arrow, then branch
on thenable / thrown / plain result, applying `resolved` or `rejected` in
the synchronous branches and returning the thenable in the pending
branch. -/
def goCallback (env : Env) (m : Machine) (targetArrow : ArrowId)
    (targetState : StateId) (arrow : ArrowVal) (args : Args) :
    (GoRes × Machine) × List Ev :=
  let m1 : Machine :=
    { m with _currentTransition := some (Pending.mk targetArrow targetState) }
  match _evaluateArrow env arrow args with
  | (.ok (.pendingThen t), evs) => ((GoRes.pendingThen t, m1), evs)
  | (.error e, evs) =>
    ((GoRes.thrown (m1.rejected e).1, (m1.rejected e).2), evs)
  | (.ok (.plain v), evs) =>
    ((GoRes.ret (m1.resolved targetState v).1,
      (m1.resolved targetState v).2), evs)

/-- Method `go(targetArrow, targetState, ...goArgs)` (lines 193-230):
`_dryGo` with the executor callback; a gate error propagates as a throw
with the machine untouched. -/
def Machine.go (env : Env) (m : Machine) (targetArrow : ArrowId)
    (targetState : StateId) (args : Args) : (GoRes × Machine) × List Ev :=
  match _dryGo env m targetArrow targetState
      (fun tA tS arrow as => goCallback env m tA tS arrow as) args with
  | (.error e, evs) => ((GoRes.thrown e, m), evs)
  | (.ok rm, evs) => (rm, evs)

/-- Eventual settlement of the thenable an action returned: fulfilled with
a plain value, or rejected with user error `n`. -/
inductive Settled where
  | succeed (v : PVal)
  | fail (n : Nat)
deriving DecidableEq, Repr

/-- What the caller of `go` observes when the returned thenable settles. -/
inductive SettleRes where
  | resolvedWith (v : PVal)
  | rejectedWith (e : JsErr)
deriving DecidableEq, Repr

/-- The continuation `transitionResult.then(resolved, rejected)` registered
by `go` (line 223), applied when the thenable settles; `targetState` is
the target captured by the `go` call that created the continuations. -/
def Machine.settleGo (m : Machine) (targetState : StateId) :
    Settled → SettleRes × Machine
  | .succeed v =>
    ((SettleRes.resolvedWith (m.resolved targetState v).1),
      (m.resolved targetState v).2)
  | .fail n =>
    ((SettleRes.rejectedWith (m.rejected (.user n)).1),
      (m.rejected (.user n)).2)

/-- The raw options record passed to the constructor; `none` is an absent
property. -/
structure Options where
  states : Option (List StateId)
  arrows : Option (List ArrowId)
  initial : Option StateId
  transitions : Option TransMap
deriving DecidableEq, Repr

/-- The constructor of `StateMachine` (`src/index.js`, lines 34-67), check
for check: `states` missing or empty, `arrows` missing or empty, default
`initial` to `states[0]` when `initial` is falsy (absent or the empty
string), reject an `initial` not in `states`, `transitions` missing; then
build the instance with the current-state cell at `initial` and the
in-flight cell empty.  No validation of the contents of `transitions`
happens here. -/
def StateMachine.construct (o : Options) : Except JsErr Machine :=
  match o.states with
  | none => .error .invalidOptions
  | some states =>
    if states.isEmpty then .error .invalidOptions
    else
      match o.arrows with
      | none => .error .invalidOptions
      | some arrows =>
        if arrows.isEmpty then .error .invalidOptions
        else
          let initial :=
            match o.initial with
            | none => states.headD ""
            | some s => if s = "" then states.headD "" else s
          if initial ∉ states then .error .unknownState
          else
            match o.transitions with
            | none => .error .invalidOptions
            | some transitions =>
              .ok { _states := states, _arrows := arrows,
                    _transitions := transitions, _state := initial,
                    _currentTransition := none }

/-- Options of the plain-target variant (`src/unnamed/part_001`), which has
no `arrows` layer. -/
structure PlainOptions where
  states : Option (List StateId)
  initial : Option StateId
  transitions : Option (List (StateId × List (StateId × ArrowVal)))
deriving DecidableEq, Repr

/-- The runtime instance of the plain-target variant
(`src/unnamed/part_001`, lines 35-40 of the class body). -/
structure PlainMachine where
  _states : List StateId
  _initial : StateId
  _transitions : List (StateId × List (StateId × ArrowVal))
  _state : StateId
  _transitioning : Option StateId
deriving DecidableEq, Repr

/-- The constructor of the plain-target `StateMachine`
(`src/unnamed/part_001`, constructor): `states` missing or zero-length,
default `initial` to `states[0]` when falsy, reject an unknown `initial`,
`transitions` missing; no validation of the contents of `transitions`. -/
def PlainStateMachine.construct (o : PlainOptions) : Except JsErr PlainMachine :=
  match o.states with
  | none => .error .invalidOptions
  | some states =>
    if states.isEmpty then .error .invalidOptions
    else
      let initial :=
        match o.initial with
        | none => states.headD ""
        | some s => if s = "" then states.headD "" else s
      if initial ∉ states then .error .unknownState
      else
        match o.transitions with
        | none => .error .invalidOptions
        | some transitions =>
          .ok { _states := states, _initial := initial,
                _transitions := transitions, _state := initial,
                _transitioning := none }

/-- The well-formedness invariant of a machine instance: the current state
is one of the configured states, and any in-flight record targets a
configured state. -/
def WF (m : Machine) : Prop :=
  m._state ∈ m._states ∧
    ∀ p, m._currentTransition = some p → p.targetState ∈ m._states

/-- One observable step of an instance: a `go` call (with whatever result),
or the settlement of the thenable of the in-flight transition through the
continuations that `go` registered (which captured the in-flight target
state). -/
inductive Step (env : Env) : Machine → Machine → Prop where
  | go (m : Machine) (tA : ArrowId) (tS : StateId) (args : Args)
      (r : GoRes) (m2 : Machine) (evs : List Ev) :
      m.go env tA tS args = ((r, m2), evs) → Step env m m2
  | settle (m : Machine) (p : Pending) (s : Settled) (r : SettleRes)
      (m2 : Machine) :
      m._currentTransition = some p →
      m.settleGo p.targetState s = (r, m2) → Step env m m2

/-- The resolved initial state of an options record: the explicit
`initial` when supplied and non-empty (truthy), otherwise the first
element of `states`. -/
def resolvedInitial (o : Options) : StateId :=
  match o.initial with
  | none => (o.states.getD []).headD ""
  | some s => if s = "" then (o.states.getD []).headD "" else s

/-! ## Concrete instances used by witnesses and counterexamples -/

/-- An environment whose availability predicates all return `undefined`
(falsy) and whose actions all return `undefined`. -/
def env0 : Env :=
  { availFn := fun _ _ => PVal.undef,
    actFn := fun _ _ => Except.ok (ResV.plain PVal.undef) }

/-- An environment whose actions all throw user error `7`. -/
def envThrow : Env :=
  { availFn := fun _ _ => PVal.vbool true,
    actFn := fun _ _ => Except.error 7 }

/-- An environment whose actions all return the thenable `3`. -/
def envPend : Env :=
  { availFn := fun _ _ => PVal.vbool true,
    actFn := fun _ _ => Except.ok (ResV.pendingThen 3) }

/-- A machine with an in-flight transition (busy). -/
def busyM : Machine :=
  { _states := ["a"], _arrows := ["aa"],
    _transitions := [("a", [("a", [("aa", ArrowVal.vtrue)])])],
    _state := "a", _currentTransition := some (Pending.mk "aa" "a") }

/-- A machine whose one edge has the callable action `1`. -/
def mFn : Machine :=
  { _states := ["a", "b"], _arrows := ["ab"],
    _transitions := [("a", [("b", [("ab", ArrowVal.vfun 1)])])],
    _state := "a", _currentTransition := none }

/-- A machine whose one edge is a record with availability predicate `0`
and transition action `1`. -/
def mGuard : Machine :=
  { _states := ["a"], _arrows := ["aa"],
    _transitions := [("a", [("a", [("aa", ArrowVal.vobj (some 0) (some 1))])])],
    _state := "a", _currentTransition := none }

/-- A machine whose one edge is the present-but-falsy Edge Spec `false`. -/
def mFalsy : Machine :=
  { _states := ["a"], _arrows := ["aa"],
    _transitions := [("a", [("a", [("aa", ArrowVal.vfalse)])])],
    _state := "a", _currentTransition := none }

/-- A machine whose one edge is the truthy but invalid Edge Spec `"x"`. -/
def mStr : Machine :=
  { _states := ["a"], _arrows := ["aa"],
    _transitions := [("a", [("a", [("aa", ArrowVal.vstr "x")])])],
    _state := "a", _currentTransition := none }

/-- A machine whose arrow map from `a` to `a` is non-empty but has no
entry for the declared arrow `y`. -/
def c4M : Machine :=
  { _states := ["a"], _arrows := ["x", "y"],
    _transitions := [("a", [("a", [("x", ArrowVal.vtrue)])])],
    _state := "a", _currentTransition := none }

/-- Plain-variant options naming the target state `b` in `transitions`
while `states` is `[a]` (the input of the repository test `unknown state
referenced in transitions`). -/
def c3PlainOpts : PlainOptions :=
  { states := some ["a"], initial := none,
    transitions := some [("a", [("b", ArrowVal.vtrue)])] }

/-- Labeled-variant options naming the target state `b` in `transitions`
while `states` is `[a]`. -/
def c3Opts : Options :=
  { states := some ["a"], arrows := some ["x"], initial := none,
    transitions := some [("a", [("b", [("x", ArrowVal.vtrue)])])] }

/-- Options with a supplied but falsy (empty-string) `initial`, while the
empty string is a member of `states`. -/
def c8Opts : Options :=
  { states := some ["a", ""], arrows := some ["x"], initial := some "",
    transitions := some [] }

/-- A valid configuration with an explicit non-empty `initial`. -/
def cfg8 : Options :=
  { states := some ["a", "b"], arrows := some ["x"], initial := some "b",
    transitions := some [("b", [("a", [("x", ArrowVal.vtrue)])])] }

/-- A valid configuration for the reachability witness. -/
def cfg7 : Options :=
  { states := some ["a", "b"], arrows := some ["ab"], initial := none,
    transitions := some [("a", [("b", [("ab", ArrowVal.vtrue)])])] }

/-- The machine `cfg7` constructs. -/
def m7 : Machine :=
  { _states := ["a", "b"], _arrows := ["ab"],
    _transitions := [("a", [("b", [("ab", ArrowVal.vtrue)])])],
    _state := "a", _currentTransition := none }

/-! ## Helper lemmas -/

/-- A gate failure makes `_dryGo` propagate the error without running the
callback. -/
theorem dryGo_of_checks_err {σ : Type} {env m tA tS args e evs}
    (cb : ArrowId → StateId → ArrowVal → Args → σ × List Ev)
    (h : _dryGoChecks env m tA tS args = (.error e, evs)) :
    _dryGo env m tA tS cb args = (.error e, evs) := by
  unfold _dryGo
  rw [h]

/-- A gate success makes `_dryGo` run the callback on the resolved Edge
Spec value. -/
theorem dryGo_of_checks_ok {σ : Type} {env m tA tS args av evs}
    (cb : ArrowId → StateId → ArrowVal → Args → σ × List Ev)
    (h : _dryGoChecks env m tA tS args = (.ok av, evs)) :
    _dryGo env m tA tS cb args = (.ok (cb tA tS av args).1, evs ++ (cb tA tS av args).2) := by
  unfold _dryGo
  rw [h]

/-- A gate failure makes `go` throw it with the machine untouched. -/
theorem go_of_checks_err {env m tA tS args e evs}
    (h : _dryGoChecks env m tA tS args = (.error e, evs)) :
    m.go env tA tS args = ((GoRes.thrown e, m), evs) := by
  unfold Machine.go
  rw [dryGo_of_checks_err _ h]

/-- A gate success makes `go` run the executor callback. -/
theorem go_of_checks_ok {env m tA tS args av evs}
    (h : _dryGoChecks env m tA tS args = (.ok av, evs)) :
    m.go env tA tS args =
      ((goCallback env m tA tS av args).1, evs ++ (goCallback env m tA tS av args).2) := by
  unfold Machine.go
  rw [dryGo_of_checks_ok _ h]

/-- A gate failure other than `ArrowNotAvailableError` propagates out of
`canGo`. -/
theorem canGo_of_checks_err {env m tA tS args e evs}
    (h : _dryGoChecks env m tA tS args = (.error e, evs))
    (hne : e ≠ JsErr.arrowNotAvailable) :
    m.canGo env tA tS args = (.error e, evs) := by
  unfold Machine.canGo
  rw [dryGo_of_checks_err _ h]
  cases e <;> simp_all

/-- The `ArrowNotAvailableError` gate failure is converted to `false` by
`canGo`. -/
theorem canGo_of_checks_unavailable {env m tA tS args evs}
    (h : _dryGoChecks env m tA tS args = (.error .arrowNotAvailable, evs)) :
    m.canGo env tA tS args = (.ok false, evs) := by
  unfold Machine.canGo
  rw [dryGo_of_checks_err _ h]

/-- On gate success `canGo` returns the truthiness of the Edge Spec
value. -/
theorem canGo_of_checks_ok {env m tA tS args av evs}
    (h : _dryGoChecks env m tA tS args = (.ok av, evs)) :
    m.canGo env tA tS args = (.ok av.truthy, evs) := by
  unfold Machine.canGo
  rw [dryGo_of_checks_ok _ h]
  simp

/-- A synchronous throw from the action makes the executor clear the
in-flight record and rethrow the error, leaving the state cell alone. -/
theorem goCallback_of_eval_err {env m tA tS av args e evs2}
    (h : _evaluateArrow env av args = (.error e, evs2)) :
    goCallback env m tA tS av args =
      ((GoRes.thrown e, { m with _currentTransition := none }), evs2) := by
  unfold goCallback
  rw [h]
  rfl

/-- A plain synchronous return makes the executor commit the target state,
clear the in-flight record and return the value. -/
theorem goCallback_of_eval_plain {env m tA tS av args v evs2}
    (h : _evaluateArrow env av args = (.ok (.plain v), evs2)) :
    goCallback env m tA tS av args =
      ((GoRes.ret v, { m with _state := tS, _currentTransition := none }), evs2) := by
  unfold goCallback
  rw [h]
  rfl

/-- A thenable return makes the executor leave the in-flight record set and
hand the thenable back. -/
theorem goCallback_of_eval_pending {env m tA tS av args t evs2}
    (h : _evaluateArrow env av args = (.ok (.pendingThen t), evs2)) :
    goCallback env m tA tS av args =
      ((GoRes.pendingThen t,
        { m with _currentTransition := some (Pending.mk tA tS) }), evs2) := by
  unfold goCallback
  rw [h]

/-- Gate success implies the target state and arrow are known and the
machine was not busy. -/
theorem checks_ok_facts {env m tA tS args av evs}
    (h : _dryGoChecks env m tA tS args = (.ok av, evs)) :
    tS ∈ m._states ∧ tA ∈ m._arrows ∧ m._currentTransition = none := by
  unfold _dryGoChecks at h
  by_cases h1 : tS ∈ m._states
  case neg => simp [h1] at h
  by_cases h2 : tA ∈ m._arrows
  case neg => simp [h1, h2] at h
  rcases h3 : m._currentTransition with _ | p
  · exact ⟨h1, h2, rfl⟩
  · rw [h3] at h
    simp [h1, h2] at h

/-- Under the structural conditions of a request that reaches the deepest
map, the gate outcome is decided by the `available` read and call on the
looked-up Edge Spec value. -/
theorem checks_eq {env : Env} {m : Machine} {tA : ArrowId} {tS : StateId}
    {args : Args} {dts : TargetMap} {da : ArrowMap} {av : ArrowVal}
    (hS : tS ∈ m._states) (hA : tA ∈ m._arrows)
    (hB : m._currentTransition = none)
    (hT : m._transitions.lookup m._state = some dts)
    (hTne : dts.isEmpty = false)
    (hTS : dts.lookup tS = some da) (hDne : da.isEmpty = false)
    (hArr : da.lookup tA = some av) :
    _dryGoChecks env m tA tS args =
      match getAvailable av with
      | .error e => (.error e, [])
      | .ok none => (.ok av, [])
      | .ok (some f) =>
        if (env.availFn f args).truthy then (.ok av, [Ev.callAvailable f args])
        else (.error .arrowNotAvailable, [Ev.callAvailable f args]) := by
  unfold _dryGoChecks
  simp [hS, hA, hB, hT, hTne, hTS, hDne, hArr]

/-- An Edge Spec value that is none of the three recognized shapes makes
`_evaluateArrow` throw a TypeError without invoking anything. -/
theorem eval_of_invalid_shape {env : Env} {av : ArrowVal} {args : Args}
    (h : av.validShape = false) :
    ∃ msg, _evaluateArrow env av args = (.error (.typeError msg), []) := by
  cases av <;> simp_all [ArrowVal.validShape, _evaluateArrow]
  case vobj a t => cases t <;> simp_all

/-- A `go` call preserves the invariant. -/
theorem go_preserves_WF {env m tA tS args r m2 evs} (hwf : WF m)
    (h : m.go env tA tS args = ((r, m2), evs)) : WF m2 := by
  rcases hc : _dryGoChecks env m tA tS args with ⟨res, gevs⟩
  cases res with
  | error e =>
    rw [go_of_checks_err hc] at h
    obtain ⟨-, h2⟩ := Prod.mk.injEq .. ▸ h
    obtain ⟨-, h3⟩ := Prod.mk.injEq .. ▸ (Prod.mk.inj h).1
    exact (Prod.mk.inj (Prod.mk.inj h).1).2 ▸ hwf
  | ok av =>
    obtain ⟨hS, hA, hB⟩ := checks_ok_facts hc
    rw [go_of_checks_ok hc] at h
    rcases he : _evaluateArrow env av args with ⟨er, eevs⟩
    rcases er with e | rv
    · rw [goCallback_of_eval_err he] at h
      have hm2 : m2 = { m with _currentTransition := none } :=
        ((Prod.mk.inj (Prod.mk.inj h).1).2).symm
      subst hm2
      exact ⟨hwf.1, by simp⟩
    · rcases rv with v | t
      · rw [goCallback_of_eval_plain he] at h
        have hm2 : m2 = { m with _state := tS, _currentTransition := none } :=
          ((Prod.mk.inj (Prod.mk.inj h).1).2).symm
        subst hm2
        exact ⟨hS, by simp⟩
      · rw [goCallback_of_eval_pending he] at h
        have hm2 : m2 = { m with _currentTransition := some (Pending.mk tA tS) } :=
          ((Prod.mk.inj (Prod.mk.inj h).1).2).symm
        subst hm2
        refine ⟨hwf.1, ?_⟩
        intro p hp
        simp at hp
        rw [← hp]
        exact hS

/-- Settling the in-flight transition preserves the invariant. -/
theorem settle_preserves_WF {m : Machine} {p : Pending} {s : Settled}
    {r : SettleRes} {m2 : Machine} (hwf : WF m)
    (hp : m._currentTransition = some p)
    (h : m.settleGo p.targetState s = (r, m2)) : WF m2 := by
  cases s with
  | succeed v =>
    have hm2 : m2 = { m with _state := p.targetState, _currentTransition := none } :=
      ((Prod.mk.inj h).2).symm
    subst hm2
    exact ⟨hwf.2 p hp, by simp⟩
  | fail n =>
    have hm2 : m2 = { m with _currentTransition := none } :=
      ((Prod.mk.inj h).2).symm
    subst hm2
    exact ⟨hwf.1, by simp⟩

/-- Construction establishes the invariant. -/
theorem construct_WF {o : Options} {m0 : Machine}
    (h : StateMachine.construct o = .ok m0) : WF m0 := by
  unfold StateMachine.construct at h
  split at h
  · exact absurd h (by simp)
  split at h
  · exact absurd h (by simp)
  split at h
  · exact absurd h (by simp)
  split at h
  · exact absurd h (by simp)
  simp only [] at h
  split at h
  · exact absurd h (by simp)
  rename_i hni
  split at h
  · exact absurd h (by simp)
  obtain hm := Except.ok.inj h
  subst hm
  constructor
  · simpa using hni
  · intro p hp
    simp at hp

/-- A `go` call that returns a plain value has committed exactly the
requested target state, and that target was validated against the
configured states. -/
theorem go_ret_facts {env : Env} {m : Machine} {tA : ArrowId} {tS : StateId}
    {args : Args} {v : PVal} {m2 : Machine} {evs : List Ev}
    (h : m.go env tA tS args = ((GoRes.ret v, m2), evs)) :
    m2._state = tS ∧ tS ∈ m._states := by
  rcases hc : _dryGoChecks env m tA tS args with ⟨res, gevs⟩
  cases res with
  | error e =>
    rw [go_of_checks_err hc] at h
    exact absurd (Prod.mk.inj (Prod.mk.inj h).1).1 (by simp)
  | ok av =>
    obtain ⟨hS, -, -⟩ := checks_ok_facts hc
    rw [go_of_checks_ok hc] at h
    rcases he : _evaluateArrow env av args with ⟨er, eevs⟩
    rcases er with e | rv
    · rw [goCallback_of_eval_err he] at h
      exact absurd (Prod.mk.inj (Prod.mk.inj h).1).1 (by simp)
    · rcases rv with w | t
      · rw [goCallback_of_eval_plain he] at h
        have hm2 := (Prod.mk.inj (Prod.mk.inj h).1).2
        rw [← hm2]
        exact ⟨rfl, hS⟩
      · rw [goCallback_of_eval_pending he] at h
        exact absurd (Prod.mk.inj (Prod.mk.inj h).1).1 (by simp)

/-- A `go` call that did not return a plain value (it threw, or handed back
a pending thenable) leaves the current-state cell unchanged. -/
theorem go_nonret_state {env : Env} {m : Machine} {tA : ArrowId} {tS : StateId}
    {args : Args} {r : GoRes} {m2 : Machine} {evs : List Ev}
    (h : m.go env tA tS args = ((r, m2), evs))
    (hnr : ∀ v, r ≠ GoRes.ret v) : m2._state = m._state := by
  rcases hc : _dryGoChecks env m tA tS args with ⟨res, gevs⟩
  cases res with
  | error e =>
    rw [go_of_checks_err hc] at h
    rw [← (Prod.mk.inj (Prod.mk.inj h).1).2]
  | ok av =>
    rw [go_of_checks_ok hc] at h
    rcases he : _evaluateArrow env av args with ⟨er, eevs⟩
    rcases er with e | rv
    · rw [goCallback_of_eval_err he] at h
      rw [← (Prod.mk.inj (Prod.mk.inj h).1).2]
    · rcases rv with w | t
      · rw [goCallback_of_eval_plain he] at h
        exact absurd ((Prod.mk.inj (Prod.mk.inj h).1).1).symm (hnr w)
      · rw [goCallback_of_eval_pending he] at h
        rw [← (Prod.mk.inj (Prod.mk.inj h).1).2]

/-- The invariant holds in every reachable instance state. -/
theorem reachable_WF {env : Env} {o : Options} {m0 m : Machine}
    (h0 : StateMachine.construct o = .ok m0)
    (hr : Relation.ReflTransGen (Step env) m0 m) : WF m := by
  induction hr with
  | refl => exact construct_WF h0
  | tail hab hbc ih =>
    cases hbc with
    | go tA tS args r m2 evs hgo => exact go_preserves_WF ih hgo
    | settle p s r m2 hp hset => exact settle_preserves_WF ih hp hset

/-! ## Claims -/

/-- C1 (counterexample): the claim says every request issued while
`isBusy()` is true fails with `ConcurrentTransitionError`, for any
`targetArrow` and `targetState`.  The gate checks the target state and
arrow against the configuration before the busy check, so a busy machine
given an unknown target state fails with `UnknownStateError`, not
`ConcurrentTransitionError` (for both `go` and `canGo`). -/
theorem C1_counterexample :
    busyM.isBusy = true ∧
    busyM.go env0 "aa" "x" [] = ((GoRes.thrown JsErr.unknownState, busyM), []) ∧
    busyM.canGo env0 "aa" "x" [] = (Except.error JsErr.unknownState, []) ∧
    JsErr.unknownState ≠ JsErr.concurrentTransition :=
  ⟨rfl, rfl, rfl, by decide⟩

/-- C1 (amended): every request whose `targetState` is a configured state
and whose `targetArrow` is a configured arrow, issued while `isBusy()` is
true, fails with `ConcurrentTransitionError` — `go` throws it and `canGo`
rethrows it — and the machine (hence `currentState()` and `isBusy()`) is
returned unchanged. -/
theorem C1_busy_rejection {env : Env} {m : Machine} {tA : ArrowId}
    {tS : StateId} {args : Args} {p : Pending}
    (hS : tS ∈ m._states) (hA : tA ∈ m._arrows)
    (hB : m._currentTransition = some p) :
    m.go env tA tS args = ((GoRes.thrown JsErr.concurrentTransition, m), []) ∧
    m.canGo env tA tS args = (Except.error JsErr.concurrentTransition, []) := by
  have hc : _dryGoChecks env m tA tS args = (.error .concurrentTransition, []) := by
    unfold _dryGoChecks
    simp [hS, hA, hB]
  exact ⟨go_of_checks_err hc, canGo_of_checks_err hc (by decide)⟩

/-- C1 (witness): the amended theorem applied to the busy machine with the
known state `a` and known arrow `aa`. -/
theorem C1_witness :
    ("a" ∈ busyM._states ∧ "aa" ∈ busyM._arrows ∧
      busyM._currentTransition = some (Pending.mk "aa" "a")) ∧
    (busyM.go env0 "aa" "a" [] =
        ((GoRes.thrown JsErr.concurrentTransition, busyM), []) ∧
      busyM.canGo env0 "aa" "a" [] =
        (Except.error JsErr.concurrentTransition, [])) :=
  ⟨⟨by decide, by decide, rfl⟩, C1_busy_rejection (by decide) (by decide) rfl⟩

/-- C2: when the gate has approved a `go` request and the edge action
fails — synchronously throwing user error `n`, or returning a thenable
that is later rejected with reason `n` — the same error value propagates
unwrapped, the current-state cell is exactly what it was before the call,
and the in-flight record is cleared as soon as the action has settled, so
`isBusy()` is false then. -/
theorem C2_action_failure {env : Env} {m : Machine} {tA : ArrowId}
    {tS : StateId} {args : Args} {av : ArrowVal} {gevs : List Ev}
    (hg : _dryGoChecks env m tA tS args = (.ok av, gevs)) :
    (∀ n evs2, _evaluateArrow env av args = (.error (.user n), evs2) →
      m.go env tA tS args =
        ((GoRes.thrown (JsErr.user n), { m with _currentTransition := none }),
          gevs ++ evs2) ∧
      ({ m with _currentTransition := none } : Machine)._state = m._state ∧
      ({ m with _currentTransition := none } : Machine).isBusy = false) ∧
    (∀ t evs2, _evaluateArrow env av args = (.ok (.pendingThen t), evs2) →
      m.go env tA tS args =
        ((GoRes.pendingThen t,
          { m with _currentTransition := some (Pending.mk tA tS) }),
          gevs ++ evs2) ∧
      (∀ k, ({ m with _currentTransition := some (Pending.mk tA tS) } : Machine).settleGo
          tS (Settled.fail k) =
        (SettleRes.rejectedWith (JsErr.user k),
          { m with _currentTransition := none })) ∧
      ({ m with _currentTransition := none } : Machine)._state = m._state ∧
      ({ m with _currentTransition := none } : Machine).isBusy = false) := by
  constructor
  · intro n evs2 he
    refine ⟨?_, rfl, rfl⟩
    rw [go_of_checks_ok hg, goCallback_of_eval_err he]
  · intro t evs2 he
    refine ⟨?_, ?_, rfl, rfl⟩
    · rw [go_of_checks_ok hg, goCallback_of_eval_pending he]
    · intro k
      rfl

/-- C2 (witness): the theorem applied to the one-edge machine `mFn`, once
with the environment whose action throws user error `7`, and once with the
environment whose action returns thenable `3`, later rejected with user
error `9`. -/
theorem C2_witness :
    (_dryGoChecks envThrow mFn "ab" "b" [] = (Except.ok (ArrowVal.vfun 1), []) ∧
      _evaluateArrow envThrow (ArrowVal.vfun 1) [] =
        (Except.error (JsErr.user 7), [Ev.callTransition 1 []]) ∧
      mFn.go envThrow "ab" "b" [] =
        ((GoRes.thrown (JsErr.user 7), { mFn with _currentTransition := none }),
          [] ++ [Ev.callTransition 1 []])) ∧
    (_dryGoChecks envPend mFn "ab" "b" [] = (Except.ok (ArrowVal.vfun 1), []) ∧
      mFn.go envPend "ab" "b" [] =
        ((GoRes.pendingThen 3,
          { mFn with _currentTransition := some (Pending.mk "ab" "b") }),
          [] ++ [Ev.callTransition 1 []]) ∧
      ({ mFn with _currentTransition := some (Pending.mk "ab" "b") } : Machine).settleGo
          "b" (Settled.fail 9) =
        (SettleRes.rejectedWith (JsErr.user 9),
          { mFn with _currentTransition := none })) :=
  ⟨⟨rfl, rfl,
      ((@C2_action_failure envThrow mFn "ab" "b" [] (ArrowVal.vfun 1) [] rfl).1
        7 [Ev.callTransition 1 []] rfl).1⟩,
    ⟨rfl,
      ((@C2_action_failure envPend mFn "ab" "b" [] (ArrowVal.vfun 1) [] rfl).2
        3 [Ev.callTransition 1 []] rfl).1,
      (((@C2_action_failure envPend mFn "ab" "b" [] (ArrowVal.vfun 1) [] rfl).2
        3 [Ev.callTransition 1 []] rfl).2.1 9)⟩⟩

/-- C3: construction does not validate target states named in
`transitions` against `states`.  Both constructors accept, without error,
options whose `transitions` name the target state `b` while `states` is
`[a]` — the exact input the repository test `unknown state referenced in
transitions` expects to raise `InvalidOptionsError`. -/
theorem C3_construction_accepts_unknown_target_state :
    PlainStateMachine.construct c3PlainOpts =
      Except.ok { _states := ["a"], _initial := "a",
                  _transitions := [("a", [("b", ArrowVal.vtrue)])],
                  _state := "a", _transitioning := none } ∧
    StateMachine.construct c3Opts =
      Except.ok { _states := ["a"], _arrows := ["x"],
                  _transitions := [("a", [("b", [("x", ArrowVal.vtrue)])])],
                  _state := "a", _currentTransition := none } ∧
    "b" ∉ (["a"] : List StateId) :=
  ⟨rfl, rfl, by decide⟩

/-- C4: when the arrow map from the current state to the target state
exists and is non-empty but has no entry for the requested (configured)
arrow, the gate reads the `available` property of `undefined` and throws
a raw TypeError — not `NoArrowsError` — from both `go` and `canGo`. -/
theorem C4_missing_arrow_key_TypeError :
    c4M._transitions.lookup c4M._state = some [("a", [("x", ArrowVal.vtrue)])] ∧
    ([("a", [("x", ArrowVal.vtrue)])] : TargetMap).lookup "a" =
      some [("x", ArrowVal.vtrue)] ∧
    ([("x", ArrowVal.vtrue)] : ArrowMap).lookup "y" = none ∧
    "y" ∈ c4M._arrows ∧
    c4M.go env0 "y" "a" [] =
      ((GoRes.thrown (JsErr.typeError "Cannot read properties of undefined"), c4M), []) ∧
    c4M.canGo env0 "y" "a" [] =
      (Except.error (JsErr.typeError "Cannot read properties of undefined"), []) ∧
    JsErr.typeError "Cannot read properties of undefined" ≠ JsErr.noArrows :=
  ⟨rfl, rfl, rfl, by decide, rfl, rfl, by decide⟩

/-- C5 (counterexample): the claim says `canGo` returns `false` exactly
when the gate fails with `ArrowNotAvailableError`.  With a
present-but-falsy Edge Spec (`false`), the gate succeeds — no error at
all — and `canGo` still returns `false`, refuting the only-if
direction. -/
theorem C5_counterexample :
    _dryGoChecks env0 mFalsy "aa" "a" [] = (Except.ok ArrowVal.vfalse, []) ∧
    mFalsy.canGo env0 "aa" "a" [] = (Except.ok false, []) :=
  ⟨rfl, rfl⟩

/-- C5 (amended): `canGo` returns `false` when the gate fails with
`ArrowNotAvailableError` and also when the gate succeeds with a falsy
Edge Spec value; every other gate failure — unknown state, unknown
arrow, concurrent transition, no arrows, TypeError — propagates from
`canGo` as a thrown error; and on gate success `canGo` never throws: it
returns the truthiness of the Edge Spec value. -/
theorem C5_canGo_error_conversion {env : Env} {m : Machine} {tA : ArrowId}
    {tS : StateId} {args : Args} :
    (∀ evs, _dryGoChecks env m tA tS args = (.error .arrowNotAvailable, evs) →
      m.canGo env tA tS args = (Except.ok false, evs)) ∧
    (∀ e evs, _dryGoChecks env m tA tS args = (.error e, evs) →
      e ≠ JsErr.arrowNotAvailable →
      m.canGo env tA tS args = (Except.error e, evs)) ∧
    (∀ av evs, _dryGoChecks env m tA tS args = (.ok av, evs) →
      m.canGo env tA tS args = (Except.ok av.truthy, evs)) :=
  ⟨fun _ h => canGo_of_checks_unavailable h,
    fun _ _ h hne => canGo_of_checks_err h hne,
    fun _ _ h => canGo_of_checks_ok h⟩

/-- C5 (witness): the amended theorem applied to the guarded machine with
its falsy availability predicate (`ArrowNotAvailableError` converted to
`false`) and to the busy machine (`ConcurrentTransitionError` rethrown). -/
theorem C5_witness :
    (_dryGoChecks env0 mGuard "aa" "a" [] =
        (Except.error JsErr.arrowNotAvailable, [Ev.callAvailable 0 []]) ∧
      mGuard.canGo env0 "aa" "a" [] = (Except.ok false, [Ev.callAvailable 0 []])) ∧
    (_dryGoChecks env0 busyM "aa" "a" [] =
        (Except.error JsErr.concurrentTransition, []) ∧
      busyM.canGo env0 "aa" "a" [] =
        (Except.error JsErr.concurrentTransition, [])) :=
  ⟨⟨rfl, (@C5_canGo_error_conversion env0 mGuard "aa" "a" []).1
      [Ev.callAvailable 0 []] rfl⟩,
    ⟨rfl, (@C5_canGo_error_conversion env0 busyM "aa" "a" []).2.1
      JsErr.concurrentTransition [] rfl (by decide)⟩⟩

/-- C6: on an edge of record shape whose `available` predicate, invoked
with the exact caller arguments, returns a falsy value, `canGo` returns
`false` and `go` throws `ArrowNotAvailableError`; the recorded events show
the predicate was called once with the caller arguments and the transition
action was never invoked; and `go` returns the machine unchanged. -/
theorem C6_availability_gating {env : Env} {m : Machine} {tA : ArrowId}
    {tS : StateId} {args : Args} {dts : TargetMap} {da : ArrowMap}
    {f : FunId} {t : Option FunId}
    (hS : tS ∈ m._states) (hA : tA ∈ m._arrows)
    (hB : m._currentTransition = none)
    (hT : m._transitions.lookup m._state = some dts) (hTne : dts.isEmpty = false)
    (hTS : dts.lookup tS = some da) (hDne : da.isEmpty = false)
    (hArr : da.lookup tA = some (ArrowVal.vobj (some f) t))
    (hAvail : (env.availFn f args).truthy = false) :
    m.canGo env tA tS args = (Except.ok false, [Ev.callAvailable f args]) ∧
    m.go env tA tS args =
      ((GoRes.thrown JsErr.arrowNotAvailable, m), [Ev.callAvailable f args]) ∧
    (∀ g as2, Ev.callTransition g as2 ∉ (m.canGo env tA tS args).2 ∧
      Ev.callTransition g as2 ∉ (m.go env tA tS args).2) := by
  have hc : _dryGoChecks env m tA tS args =
      (.error .arrowNotAvailable, [Ev.callAvailable f args]) := by
    rw [checks_eq hS hA hB hT hTne hTS hDne hArr]
    simp [getAvailable, hAvail]
  refine ⟨canGo_of_checks_unavailable hc, go_of_checks_err hc, ?_⟩
  intro g as2
  rw [canGo_of_checks_unavailable hc, go_of_checks_err hc]
  simp

/-- C6 (witness): the theorem applied to the guarded machine `mGuard`
(record edge with availability predicate `0` and action `1`) under the
environment whose predicates return `undefined` (falsy), with caller
arguments `[1, 2, 3]`. -/
theorem C6_witness :
    ("a" ∈ mGuard._states ∧ "aa" ∈ mGuard._arrows ∧
      mGuard._currentTransition = none ∧
      mGuard._transitions.lookup mGuard._state =
        some [("a", [("aa", ArrowVal.vobj (some 0) (some 1))])] ∧
      ([("aa", ArrowVal.vobj (some 0) (some 1))] : ArrowMap).lookup "aa" =
        some (ArrowVal.vobj (some 0) (some 1)) ∧
      (env0.availFn 0 [1, 2, 3]).truthy = false) ∧
    (mGuard.canGo env0 "aa" "a" [1, 2, 3] =
        (Except.ok false, [Ev.callAvailable 0 [1, 2, 3]]) ∧
      mGuard.go env0 "aa" "a" [1, 2, 3] =
        ((GoRes.thrown JsErr.arrowNotAvailable, mGuard),
          [Ev.callAvailable 0 [1, 2, 3]])) :=
  ⟨⟨by decide, by decide, rfl, rfl, rfl, by decide⟩,
    ⟨(@C6_availability_gating env0 mGuard "aa" "a" [1, 2, 3]
        [("a", [("aa", ArrowVal.vobj (some 0) (some 1))])]
        [("aa", ArrowVal.vobj (some 0) (some 1))] 0 (some 1)
        (by decide) (by decide) rfl rfl rfl rfl rfl rfl (by decide)).1,
      (@C6_availability_gating env0 mGuard "aa" "a" [1, 2, 3]
        [("a", [("aa", ArrowVal.vobj (some 0) (some 1))])]
        [("aa", ArrowVal.vobj (some 0) (some 1))] 0 (some 1)
        (by decide) (by decide) rfl rfl rfl rfl rfl rfl (by decide)).2.1⟩⟩

/-- C7: in every instance state reachable from construction through any
sequence of `go` calls and action settlements, `currentState()` is a
member of the configured states; a `go` call changes the state cell only
when it returns a plain value (the action completed without error), and
then exactly to the validated target state; settlement of the in-flight
transition changes it only on success, and then exactly to the (validated)
target captured when the transition started.  `canGo` takes no machine and
returns none, so it cannot change state. -/
theorem C7_current_state_invariant {env : Env} {o : Options} {m0 m : Machine}
    (h0 : StateMachine.construct o = .ok m0)
    (hr : Relation.ReflTransGen (Step env) m0 m) :
    m._state ∈ m._states ∧
    (∀ tA tS args v m2 evs, m.go env tA tS args = ((GoRes.ret v, m2), evs) →
      m2._state = tS ∧ tS ∈ m._states) ∧
    (∀ tA tS args r m2 evs, m.go env tA tS args = ((r, m2), evs) →
      (∀ v, r ≠ GoRes.ret v) → m2._state = m._state) ∧
    (∀ p r2 m2 n, m._currentTransition = some p →
      m.settleGo p.targetState (Settled.fail n) = (r2, m2) →
      m2._state = m._state) ∧
    (∀ p r2 m2 v, m._currentTransition = some p →
      m.settleGo p.targetState (Settled.succeed v) = (r2, m2) →
      m2._state = p.targetState ∧ p.targetState ∈ m._states) := by
  have hwf := reachable_WF h0 hr
  refine ⟨hwf.1, ?_, ?_, ?_, ?_⟩
  · intro tA tS args v m2 evs h
    exact go_ret_facts h
  · intro tA tS args r m2 evs h hnr
    exact go_nonret_state h hnr
  · intro p r2 m2 n hp h
    have hm2 : m2 = { m with _currentTransition := none } :=
      ((Prod.mk.inj h).2).symm
    rw [hm2]
  · intro p r2 m2 v hp h
    have hm2 : m2 = { m with _state := p.targetState, _currentTransition := none } :=
      ((Prod.mk.inj h).2).symm
    rw [hm2]
    exact ⟨rfl, hwf.2 p hp⟩

/-- C7 (witness): the theorem applied to the configuration `cfg7` and the
machine it constructs, with the empty reachability sequence. -/
theorem C7_witness :
    StateMachine.construct cfg7 = Except.ok m7 ∧ m7._state ∈ m7._states :=
  ⟨rfl, (@C7_current_state_invariant env0 cfg7 m7 m7 rfl
    Relation.ReflTransGen.refl).1⟩

/-- C8 (counterexample): the claim says `currentState()` after
construction equals the explicit `initial` option when supplied.  A
supplied but falsy (empty-string) `initial` is treated as unspecified
(`!options.initial`), so construction resolves the initial state to
`states[0]` instead: with `states = [a, ""]` and `initial = ""`, the
constructed state is `a`, not the supplied `""`. -/
theorem C8_counterexample :
    c8Opts.initial = some "" ∧
    StateMachine.construct c8Opts =
      Except.ok { _states := ["a", ""], _arrows := ["x"], _transitions := [],
                  _state := "a", _currentTransition := none } ∧
    ("a" : StateId) ≠ "" :=
  ⟨rfl, rfl, by decide⟩

/-- C8 (amended): for every configuration whose `states` and `arrows` are
present and non-empty, `currentState()` immediately after construction
equals the resolved initial — the explicit `initial` when supplied and
non-empty (truthy), otherwise the first element of `states` — and
construction fails with `UnknownStateError` when the resolved initial is
not a member of `states`. -/
theorem C8_initial_resolution {o : Options} {sts : List StateId}
    {ars : List ArrowId}
    (hs : o.states = some sts) (hs0 : sts.isEmpty = false)
    (ha : o.arrows = some ars) (ha0 : ars.isEmpty = false) :
    (∀ tr, o.transitions = some tr → resolvedInitial o ∈ sts →
      StateMachine.construct o =
        Except.ok { _states := sts, _arrows := ars, _transitions := tr,
                    _state := resolvedInitial o, _currentTransition := none }) ∧
    (resolvedInitial o ∉ sts →
      StateMachine.construct o = Except.error JsErr.unknownState) := by
  have hres : (match o.initial with
      | none => sts.headD ""
      | some s => if s = "" then sts.headD "" else s) = resolvedInitial o := by
    unfold resolvedInitial
    rw [hs]
    rcases o.initial with _ | s <;> rfl
  constructor
  · intro tr ht hmem
    unfold StateMachine.construct
    rw [hs, ha, ht]
    simp only [hs0, ha0, Bool.false_eq_true, if_false, hres]
    rw [if_neg (by simpa using hmem)]
  · intro hmem
    unfold StateMachine.construct
    rw [hs, ha]
    simp only [hs0, ha0, Bool.false_eq_true, if_false, hres]
    rw [if_pos (by simpa using hmem)]

/-- C8 (witness): the amended theorem applied to the configuration `cfg8`
with the explicit truthy initial `b`. -/
theorem C8_witness :
    (cfg8.states = some ["a", "b"] ∧ cfg8.arrows = some ["x"] ∧
      cfg8.transitions = some [("b", [("a", [("x", ArrowVal.vtrue)])])] ∧
      resolvedInitial cfg8 = "b" ∧ resolvedInitial cfg8 ∈ ["a", "b"]) ∧
    StateMachine.construct cfg8 =
      Except.ok { _states := ["a", "b"], _arrows := ["x"],
                  _transitions := [("b", [("a", [("x", ArrowVal.vtrue)])])],
                  _state := resolvedInitial cfg8, _currentTransition := none } :=
  ⟨⟨rfl, rfl, rfl, rfl, by decide⟩,
    (@C8_initial_resolution cfg8 ["a", "b"] ["x"] rfl rfl rfl rfl).1
      [("b", [("a", [("x", ArrowVal.vtrue)])])] rfl (by decide)⟩

/-- C9: action resolution follows the Edge Spec shape.  The literal
`true` is a no-op with result `undefined`; a callable is invoked with the
caller arguments; a record has its `transition` field invoked with the
caller arguments; an Edge Spec of any other shape throws a TypeError and
is never coerced: a nullish spec makes `go` throw it synchronously from
the gate property read with the machine untouched, and any other invalid
spec the gate approves makes `go` throw it synchronously from the
executor, with the state cell unchanged and the in-flight record
cleared. -/
theorem C9_action_resolution {env : Env} {args : Args} :
    _evaluateArrow env ArrowVal.vtrue args =
      (Except.ok (ResV.plain PVal.undef), []) ∧
    (∀ f, _evaluateArrow env (ArrowVal.vfun f) args =
      (wrapUser (env.actFn f args), [Ev.callTransition f args])) ∧
    (∀ a t, _evaluateArrow env (ArrowVal.vobj a (some t)) args =
      (wrapUser (env.actFn t args), [Ev.callTransition t args])) ∧
    (∀ av : ArrowVal, av.validShape = false →
      ∃ msg, _evaluateArrow env av args =
        (Except.error (JsErr.typeError msg), [])) ∧
    (∀ (m : Machine) (tA : ArrowId) (tS : StateId) (dts : TargetMap)
        (da : ArrowMap) (av : ArrowVal),
      tS ∈ m._states → tA ∈ m._arrows → m._currentTransition = none →
      m._transitions.lookup m._state = some dts → dts.isEmpty = false →
      dts.lookup tS = some da → da.isEmpty = false → da.lookup tA = some av →
      (av = ArrowVal.vnull ∨ av = ArrowVal.vundef) →
      ∃ msg, m.go env tA tS args =
        ((GoRes.thrown (JsErr.typeError msg), m), [])) ∧
    (∀ (m : Machine) (tA : ArrowId) (tS : StateId) (av : ArrowVal)
        (gevs : List Ev),
      _dryGoChecks env m tA tS args = (.ok av, gevs) →
      av.validShape = false →
      ∃ msg, m.go env tA tS args =
        ((GoRes.thrown (JsErr.typeError msg),
          { m with _currentTransition := none }), gevs)) := by
  refine ⟨rfl, fun f => rfl, fun a t => rfl, fun av h => eval_of_invalid_shape h,
    ?_, ?_⟩
  · intro m tA tS dts da av hS hA hB hT hTne hTS hDne hArr hnull
    have hc := @checks_eq env m tA tS args dts da av hS hA hB hT hTne hTS hDne hArr
    rcases hnull with h | h <;> subst h
    · exact ⟨"Cannot read properties of null", go_of_checks_err hc⟩
    · exact ⟨"Cannot read properties of undefined", go_of_checks_err hc⟩
  · intro m tA tS av gevs hg hinv
    obtain ⟨msg, hm⟩ := @eval_of_invalid_shape env av args hinv
    refine ⟨msg, ?_⟩
    rw [go_of_checks_ok hg, goCallback_of_eval_err hm]
    simp

/-- C9 (witness): the theorem applied at a concrete environment; the
gate-approved invalid-shape clause is applied to the machine whose edge is
the truthy invalid spec `"x"`. -/
theorem C9_witness :
    (_dryGoChecks env0 mStr "aa" "a" [] = (Except.ok (ArrowVal.vstr "x"), []) ∧
      (ArrowVal.vstr "x").validShape = false) ∧
    (_evaluateArrow env0 ArrowVal.vtrue [] =
        (Except.ok (ResV.plain PVal.undef), []) ∧
      (∃ msg, mStr.go env0 "aa" "a" [] =
        ((GoRes.thrown (JsErr.typeError msg),
          { mStr with _currentTransition := none }), []))) :=
  ⟨⟨rfl, by decide⟩,
    ⟨(@C9_action_resolution env0 []).1,
      (@C9_action_resolution env0 []).2.2.2.2.2 mStr "aa" "a"
        (ArrowVal.vstr "x") [] rfl (by decide)⟩⟩

/-- C10: when every gate check passes, `canGo` returns the truthiness of
the stored Edge Spec value without validating its shape: for a truthy
Edge Spec of invalid shape `canGo` returns `true` while `go` on the
identical request throws a TypeError, and for a present-but-falsy Edge
Spec value that passes the gate `canGo` returns `false` without raising
any error. -/
theorem C10_canGo_skips_shape_validation {env : Env} {m : Machine}
    {tA : ArrowId} {tS : StateId} {args : Args} {av : ArrowVal}
    {gevs : List Ev}
    (hg : _dryGoChecks env m tA tS args = (.ok av, gevs)) :
    m.canGo env tA tS args = (Except.ok av.truthy, gevs) ∧
    (av.truthy = true → av.validShape = false →
      ∃ msg, (m.go env tA tS args).1.1 = GoRes.thrown (JsErr.typeError msg)) ∧
    (av.truthy = false →
      m.canGo env tA tS args = (Except.ok false, gevs)) := by
  refine ⟨canGo_of_checks_ok hg, ?_, ?_⟩
  · intro htr hinv
    obtain ⟨msg, hm⟩ := @eval_of_invalid_shape env av args hinv
    refine ⟨msg, ?_⟩
    rw [go_of_checks_ok hg, goCallback_of_eval_err hm]
  · intro hf
    have h := canGo_of_checks_ok hg
    rw [hf] at h
    exact h

/-- C10 (witness): the theorem applied to the machine with the truthy
invalid Edge Spec `"x"` (`canGo` true, `go` TypeError) and to the machine
with the present-but-falsy Edge Spec `false` (`canGo` false, no
error). -/
theorem C10_witness :
    (_dryGoChecks env0 mStr "aa" "a" [] = (Except.ok (ArrowVal.vstr "x"), []) ∧
      (ArrowVal.vstr "x").truthy = true ∧
      (ArrowVal.vstr "x").validShape = false ∧
      _dryGoChecks env0 mFalsy "aa" "a" [] = (Except.ok ArrowVal.vfalse, []) ∧
      ArrowVal.vfalse.truthy = false) ∧
    (mStr.canGo env0 "aa" "a" [] = (Except.ok true, []) ∧
      (∃ msg, (mStr.go env0 "aa" "a" []).1.1 =
        GoRes.thrown (JsErr.typeError msg)) ∧
      mFalsy.canGo env0 "aa" "a" [] = (Except.ok false, [])) :=
  ⟨⟨rfl, by decide, by decide, rfl, by decide⟩,
    ⟨(@C10_canGo_skips_shape_validation env0 mStr "aa" "a" []
        (ArrowVal.vstr "x") [] rfl).1,
      (@C10_canGo_skips_shape_validation env0 mStr "aa" "a" []
        (ArrowVal.vstr "x") [] rfl).2.1 rfl (by decide),
      (@C10_canGo_skips_shape_validation env0 mFalsy "aa" "a" []
        ArrowVal.vfalse [] rfl).2.2 rfl⟩⟩
